import Mathlib

/-!
Shallow embedding of the risk-dashboard core (aggregation engine, time-window
filter, table view model) of the `my-website` repository, with theorems
checking the natural-language specification against the code.

Sources embedded:
  * `src/unnamed/part_002` — the type declarations (`RiskLevel`, `ReviewResult`,
    `ReviewStatus`, `RiskRecord`, `DashboardStats`).
  * `src/utils/mockData.ts` — `calculateStats`.
  * `src/components/EnterpriseTable.tsx` — `rawStats`, `processedData` (the
    search filter), `handleSort`.
  * `src/components/DailyReportTable.tsx` — `dailyData`.
  * `src/unnamed/part_000` / `part_001` — the `filteredData` time-window
    filter (the `custom` branch).

Modelling conventions:
  * JavaScript numbers that hold integer counters are modelled as `Int`
    (weights can in principle be any number; the data-model invariant
    `weight ≥ 1` appears as an explicit hypothesis where a claim assumes it).
  * Exact rates (`x / y * 100`) are modelled in `ℚ`.
  * A timestamp is epoch milliseconds (`Int`); the runtime's local timezone
    is an explicit parameter `off` = milliseconds east of UTC, so that the
    JavaScript distinction between UTC parsing and local-time methods is
    visible in the model.
  * A JavaScript `Map` is an insertion-ordered association list; `Map.set` on
    a missing key appends at the end, in-place mutation rewrites the entry.
  * A JavaScript string is its list of characters; `toLowerCase`,
    `includes` and the `trim()`-truthiness test are modelled on that list.
-/

/-- The `RiskLevel` enum from `src/unnamed/part_002` (HIGH/MEDIUM/LOW/NORMAL). -/
inductive RiskLevel where
  | HIGH
  | MEDIUM
  | LOW
  | NORMAL
deriving DecidableEq, Repr

/-- The `ReviewResult` enum from `src/unnamed/part_002`. -/
inductive ReviewResult where
  | TRUE_FRAUD
  | SUSPECTED_FRAUD
  | ILLEGAL_BUSINESS
  | FALSE_POSITIVE
  | PENDING
deriving DecidableEq, Repr

/-- The `ReviewStatus` enum from `src/unnamed/part_002`. -/
inductive ReviewStatus where
  | REVIEWED
  | PENDING
deriving DecidableEq, Repr

/-- The `RiskRecord` structure from `src/unnamed/part_002`.  `callTime` (an ISO string in
the source) is modelled as epoch milliseconds, which is exactly the value
`new Date(r.callTime).getTime()` the code compares and buckets by.
`count?: number` is `Option Int`. -/
structure RiskRecord where
  id : String
  enterpriseId : String
  enterpriseName : String
  customerNumber : String
  callTime : Int
  duration : Int
  riskLevel : RiskLevel
  fraudType : String
  riskPoints : List String
  reviewStatus : ReviewStatus
  reviewResult : ReviewResult
  reviewer : Option String
  count : Option Int
deriving DecidableEq, Repr

/-- JavaScript `d.count || 1`: `undefined` and `0` are falsy, any other
number is itself. -/
def recordWeight (r : RiskRecord) : Int :=
  match r.count with
  | none => 1
  | some k => if k = 0 then 1 else k

/-- The weight of a record as the spec words it: its `count`, "with an unset
count treated as 1".  (Differs from `recordWeight` only at `count = some 0`,
which the data-model invariant `weight ≥ 1` rules out.) -/
def claimWeight (r : RiskRecord) : Int :=
  match r.count with
  | none => 1
  | some k => k

/-- The eleven accumulator variables of the `calculateStats` loop
(`src/utils/mockData.ts` lines 156-167). -/
structure StatsAcc where
  total : Int
  highRisk : Int
  medRisk : Int
  lowRisk : Int
  highRiskReviewed : Int
  mediumRiskReviewed : Int
  reviewedTotal : Int
  trueFraud : Int
  suspFraud : Int
  illegal : Int
  falsePos : Int
deriving DecidableEq, Repr

def initStatsAcc : StatsAcc :=
  { total := 0, highRisk := 0, medRisk := 0, lowRisk := 0,
    highRiskReviewed := 0, mediumRiskReviewed := 0, reviewedTotal := 0,
    trueFraud := 0, suspFraud := 0, illegal := 0, falsePos := 0 }

/-- One iteration of the `for (const d of data)` loop of `calculateStats`
(`src/utils/mockData.ts` lines 169-190).  The source's `else if` chains test
equality of one enum scrutinee, so each counter is bumped exactly under the
condition written here. -/
def statsStep (acc : StatsAcc) (d : RiskRecord) : StatsAcc :=
  let n := recordWeight d
  { total := acc.total + n
    highRisk := acc.highRisk + (if d.riskLevel = RiskLevel.HIGH then n else 0)
    medRisk := acc.medRisk + (if d.riskLevel = RiskLevel.MEDIUM then n else 0)
    lowRisk := acc.lowRisk + (if d.riskLevel = RiskLevel.LOW then n else 0)
    reviewedTotal := acc.reviewedTotal +
      (if d.reviewStatus = ReviewStatus.REVIEWED then n else 0)
    highRiskReviewed := acc.highRiskReviewed +
      (if d.reviewStatus = ReviewStatus.REVIEWED ∧ d.riskLevel = RiskLevel.HIGH then n else 0)
    mediumRiskReviewed := acc.mediumRiskReviewed +
      (if d.reviewStatus = ReviewStatus.REVIEWED ∧ d.riskLevel = RiskLevel.MEDIUM then n else 0)
    trueFraud := acc.trueFraud +
      (if d.reviewStatus = ReviewStatus.REVIEWED ∧ d.reviewResult = ReviewResult.TRUE_FRAUD then n else 0)
    suspFraud := acc.suspFraud +
      (if d.reviewStatus = ReviewStatus.REVIEWED ∧ d.reviewResult = ReviewResult.SUSPECTED_FRAUD then n else 0)
    illegal := acc.illegal +
      (if d.reviewStatus = ReviewStatus.REVIEWED ∧ d.reviewResult = ReviewResult.ILLEGAL_BUSINESS then n else 0)
    falsePos := acc.falsePos +
      (if d.reviewStatus = ReviewStatus.REVIEWED ∧ d.reviewResult = ReviewResult.FALSE_POSITIVE then n else 0) }

/-- The `DashboardStats` structure from `src/unnamed/part_002`; rates in `ℚ`. -/
structure DashboardStats where
  totalDetections : Int
  highRiskCount : Int
  mediumRiskCount : Int
  lowRiskCount : Int
  highRiskReviewedCount : Int
  mediumRiskReviewedCount : Int
  reviewedCount : Int
  reviewCompletionRate : ℚ
  highRiskRate : ℚ
  trueFraudCount : Int
  suspectedFraudCount : Int
  illegalBusinessCount : Int
  falsePositiveCount : Int
  accuracyRate : ℚ
deriving DecidableEq, Repr

/-- Embedding of `calculateStats` from `src/utils/mockData.ts` lines 154-214. -/
def calculateStats (data : List RiskRecord) : DashboardStats :=
  let a := data.foldl statsStep initStatsAcc
  let validDetections := a.trueFraud + a.suspFraud + a.illegal
  let reviewTargetCount := a.highRisk + a.medRisk
  let reviewedTargetCount := a.highRiskReviewed + a.mediumRiskReviewed
  { totalDetections := a.total
    highRiskCount := a.highRisk
    mediumRiskCount := a.medRisk
    lowRiskCount := a.lowRisk
    highRiskReviewedCount := a.highRiskReviewed
    mediumRiskReviewedCount := a.mediumRiskReviewed
    reviewedCount := a.reviewedTotal
    reviewCompletionRate :=
      if reviewTargetCount > 0 then ((reviewedTargetCount : ℚ) / (reviewTargetCount : ℚ)) * 100 else 0
    highRiskRate := if a.total > 0 then ((a.highRisk : ℚ) / (a.total : ℚ)) * 100 else 0
    trueFraudCount := a.trueFraud
    suspectedFraudCount := a.suspFraud
    illegalBusinessCount := a.illegal
    falsePositiveCount := a.falsePos
    accuracyRate :=
      if a.reviewedTotal > 0 then ((validDetections : ℚ) / (a.reviewedTotal : ℚ)) * 100 else 0 }

/-- A record whose `count` entries are all positive — the data model's
`weight ≥ 1` invariant for one record. -/
def PosCount (r : RiskRecord) : Prop := ∀ k, r.count = some k → 0 < k

instance (r : RiskRecord) : Decidable (PosCount r) :=
  match hc : r.count with
  | none => isTrue (fun k hk => by rw [hc] at hk; cases hk)
  | some k =>
    if h : 0 < k then
      isTrue (fun k' hk' => by rw [hc, Option.some.injEq] at hk'; omega)
    else
      isFalse (fun hall => h (hall k hc))

theorem recordWeight_pos (r : RiskRecord) (h : PosCount r) : 0 < recordWeight r := by
  unfold recordWeight
  cases hc : r.count with
  | none => decide
  | some k =>
    by_cases hk : k = 0
    · simp [hk]
    · simpa [hk] using h k hc

theorem recordWeight_eq_claimWeight (r : RiskRecord) (h : PosCount r) :
    recordWeight r = claimWeight r := by
  unfold recordWeight claimWeight
  cases hc : r.count with
  | none => rfl
  | some k =>
    have := h k hc
    have hk : k ≠ 0 := by omega
    simp [hk]

theorem foldl_statsStep_total (l : List RiskRecord) :
    ∀ acc : StatsAcc, (l.foldl statsStep acc).total = acc.total + (l.map recordWeight).sum := by
  induction l with
  | nil => intro acc; simp
  | cons r t ih =>
    intro acc
    simp only [List.foldl_cons, List.map_cons, List.sum_cons, ih, statsStep]
    ring

/-- C1: Weight conservation: when every record's `count`, if set, is a
positive integer (the spec's `weight ≥ 1` invariant, with an unset count
treated as 1), `calculateStats` returns `totalDetections` equal to the sum
of the records' weights. -/
theorem calculateStats_weight_conservation (data : List RiskRecord)
    (hPos : ∀ r ∈ data, PosCount r) :
    (calculateStats data).totalDetections = (data.map claimWeight).sum := by
  have h1 : (calculateStats data).totalDetections = (data.map recordWeight).sum := by
    simpa [calculateStats, initStatsAcc] using foldl_statsStep_total data initStatsAcc
  rw [h1]
  congr 1
  exact List.map_congr_left fun r hr => recordWeight_eq_claimWeight r (hPos r hr)

/-- The three-record scenario from the spec's §8 ("Testable properties"). -/
def demoRecords : List RiskRecord :=
  [ { id := "R1", enterpriseId := "E1", enterpriseName := "Alpha",
      customerNumber := "100", callTime := 0, duration := 60,
      riskLevel := RiskLevel.HIGH, fraudType := "f", riskPoints := [],
      reviewStatus := ReviewStatus.REVIEWED,
      reviewResult := ReviewResult.TRUE_FRAUD, reviewer := some "a",
      count := some 1 },
    { id := "R2", enterpriseId := "E1", enterpriseName := "Alpha",
      customerNumber := "101", callTime := 0, duration := 60,
      riskLevel := RiskLevel.HIGH, fraudType := "f", riskPoints := [],
      reviewStatus := ReviewStatus.PENDING,
      reviewResult := ReviewResult.PENDING, reviewer := none,
      count := some 1 },
    { id := "R3", enterpriseId := "E2", enterpriseName := "Beta",
      customerNumber := "102", callTime := 0, duration := 60,
      riskLevel := RiskLevel.MEDIUM, fraudType := "f", riskPoints := [],
      reviewStatus := ReviewStatus.REVIEWED,
      reviewResult := ReviewResult.FALSE_POSITIVE, reviewer := some "b",
      count := some 5 } ]

theorem calculateStats_weight_conservation_witness :
    (∀ r ∈ demoRecords, PosCount r) ∧
      (calculateStats demoRecords).totalDetections = (demoRecords.map claimWeight).sum :=
  ⟨by decide, calculateStats_weight_conservation demoRecords (by decide)⟩

theorem foldl_statsStep_highRisk (l : List RiskRecord) :
    ∀ acc : StatsAcc, (l.foldl statsStep acc).highRisk =
      acc.highRisk + ((l.filter fun r => r.riskLevel == RiskLevel.HIGH).map recordWeight).sum := by
  induction l with
  | nil => intro acc; simp
  | cons r t ih =>
    intro acc
    by_cases h : r.riskLevel = RiskLevel.HIGH <;>
      simp [List.foldl_cons, ih, statsStep, List.filter_cons, h] <;> ring

theorem foldl_statsStep_medRisk (l : List RiskRecord) :
    ∀ acc : StatsAcc, (l.foldl statsStep acc).medRisk =
      acc.medRisk + ((l.filter fun r => r.riskLevel == RiskLevel.MEDIUM).map recordWeight).sum := by
  induction l with
  | nil => intro acc; simp
  | cons r t ih =>
    intro acc
    by_cases h : r.riskLevel = RiskLevel.MEDIUM <;>
      simp [List.foldl_cons, ih, statsStep, List.filter_cons, h] <;> ring

theorem foldl_statsStep_reviewedTotal (l : List RiskRecord) :
    ∀ acc : StatsAcc, (l.foldl statsStep acc).reviewedTotal =
      acc.reviewedTotal +
        ((l.filter fun r => r.reviewStatus == ReviewStatus.REVIEWED).map recordWeight).sum := by
  induction l with
  | nil => intro acc; simp
  | cons r t ih =>
    intro acc
    by_cases h : r.reviewStatus = ReviewStatus.REVIEWED <;>
      simp [List.foldl_cons, ih, statsStep, List.filter_cons, h] <;> ring

theorem sum_recordWeight_nonneg (l : List RiskRecord) (h : ∀ r ∈ l, PosCount r) :
    0 ≤ (l.map recordWeight).sum := by
  apply List.sum_nonneg
  intro x hx
  rcases List.mem_map.mp hx with ⟨r, hr, rfl⟩
  exact le_of_lt (recordWeight_pos r (h r hr))

/-- C3: The review-completion rate is `(highReviewed + mediumReviewed) /
(high + medium) * 100`, measured against the HIGH+MEDIUM population only,
and is exactly `0` when that population is empty. -/
theorem calculateStats_reviewCompletionRate (data : List RiskRecord)
    (hPos : ∀ r ∈ data, PosCount r) :
    (calculateStats data).reviewCompletionRate =
      (if (calculateStats data).highRiskCount + (calculateStats data).mediumRiskCount = 0 then 0
       else (((calculateStats data).highRiskReviewedCount +
              (calculateStats data).mediumRiskReviewedCount : Int) : ℚ) /
            (((calculateStats data).highRiskCount +
              (calculateStats data).mediumRiskCount : Int) : ℚ) * 100) := by
  have hh : 0 ≤ ((data.filter fun r => r.riskLevel == RiskLevel.HIGH).map recordWeight).sum :=
    sum_recordWeight_nonneg _ (fun r hr => hPos r (List.mem_of_mem_filter hr))
  have hm : 0 ≤ ((data.filter fun r => r.riskLevel == RiskLevel.MEDIUM).map recordWeight).sum :=
    sum_recordWeight_nonneg _ (fun r hr => hPos r (List.mem_of_mem_filter hr))
  have h1 := foldl_statsStep_highRisk data initStatsAcc
  have h2 := foldl_statsStep_medRisk data initStatsAcc
  simp only [calculateStats]
  by_cases h0 : (data.foldl statsStep initStatsAcc).highRisk +
      (data.foldl statsStep initStatsAcc).medRisk = 0
  · simp [h0]
  · have hpos : 0 < (data.foldl statsStep initStatsAcc).highRisk +
        (data.foldl statsStep initStatsAcc).medRisk := by
      rw [h1, h2]; simp only [initStatsAcc] at *; omega
    simp [h0, hpos]

theorem calculateStats_reviewCompletionRate_witness :
    (∀ r ∈ demoRecords, PosCount r) ∧
      (calculateStats demoRecords).reviewCompletionRate =
        (if (calculateStats demoRecords).highRiskCount + (calculateStats demoRecords).mediumRiskCount = 0 then 0
         else (((calculateStats demoRecords).highRiskReviewedCount +
                (calculateStats demoRecords).mediumRiskReviewedCount : Int) : ℚ) /
              (((calculateStats demoRecords).highRiskCount +
                (calculateStats demoRecords).mediumRiskCount : Int) : ℚ) * 100) :=
  ⟨by decide, calculateStats_reviewCompletionRate demoRecords (by decide)⟩

/-- C4: The accuracy rate is `(trueFraud + suspected + illegal) /
reviewedCount * 100` where `reviewedCount` is the weight-sum of all REVIEWED
records of any tier (so FALSE_POSITIVE weight never enters the numerator),
and is exactly `0` when `reviewedCount` is `0`. -/
theorem calculateStats_accuracyRate (data : List RiskRecord)
    (hPos : ∀ r ∈ data, PosCount r) :
    (calculateStats data).reviewedCount =
        ((data.filter fun r => r.reviewStatus == ReviewStatus.REVIEWED).map claimWeight).sum ∧
    (calculateStats data).accuracyRate =
      (if (calculateStats data).reviewedCount = 0 then 0
       else (((calculateStats data).trueFraudCount + (calculateStats data).suspectedFraudCount +
              (calculateStats data).illegalBusinessCount : Int) : ℚ) /
            (((calculateStats data).reviewedCount : Int) : ℚ) * 100) := by
  have hsum := foldl_statsStep_reviewedTotal data initStatsAcc
  have hnn : 0 ≤ ((data.filter fun r => r.reviewStatus == ReviewStatus.REVIEWED).map recordWeight).sum :=
    sum_recordWeight_nonneg _ (fun r hr => hPos r (List.mem_of_mem_filter hr))
  constructor
  · have : (calculateStats data).reviewedCount =
        ((data.filter fun r => r.reviewStatus == ReviewStatus.REVIEWED).map recordWeight).sum := by
      simp only [calculateStats]
      rw [hsum]; simp [initStatsAcc]
    rw [this]
    congr 1
    exact List.map_congr_left fun r hr =>
      recordWeight_eq_claimWeight r (hPos r (List.mem_of_mem_filter hr))
  · simp only [calculateStats]
    by_cases h0 : (data.foldl statsStep initStatsAcc).reviewedTotal = 0
    · simp [h0]
    · have hpos : 0 < (data.foldl statsStep initStatsAcc).reviewedTotal := by
        rw [hsum]; simp only [initStatsAcc] at *; omega
      simp [h0, hpos]

theorem calculateStats_accuracyRate_witness :
    (∀ r ∈ demoRecords, PosCount r) ∧
      ((calculateStats demoRecords).reviewedCount =
        ((demoRecords.filter fun r => r.reviewStatus == ReviewStatus.REVIEWED).map claimWeight).sum ∧
      (calculateStats demoRecords).accuracyRate =
        (if (calculateStats demoRecords).reviewedCount = 0 then 0
         else (((calculateStats demoRecords).trueFraudCount + (calculateStats demoRecords).suspectedFraudCount +
                (calculateStats demoRecords).illegalBusinessCount : Int) : ℚ) /
              (((calculateStats demoRecords).reviewedCount : Int) : ℚ) * 100)) :=
  ⟨by decide, calculateStats_accuracyRate demoRecords (by decide)⟩

/-- C5: Tier partition: when every record's tier is HIGH, MEDIUM or LOW,
`highRiskCount + mediumRiskCount + lowRiskCount = totalDetections`. -/
theorem calculateStats_tier_partition (data : List RiskRecord)
    (hTier : ∀ r ∈ data, r.riskLevel = RiskLevel.HIGH ∨ r.riskLevel = RiskLevel.MEDIUM ∨
      r.riskLevel = RiskLevel.LOW) :
    (calculateStats data).highRiskCount + (calculateStats data).mediumRiskCount +
      (calculateStats data).lowRiskCount = (calculateStats data).totalDetections := by
  simp only [calculateStats]
  have key : ∀ (l : List RiskRecord),
      (∀ r ∈ l, r.riskLevel = RiskLevel.HIGH ∨ r.riskLevel = RiskLevel.MEDIUM ∨
        r.riskLevel = RiskLevel.LOW) →
      ∀ acc : StatsAcc,
      (l.foldl statsStep acc).highRisk + (l.foldl statsStep acc).medRisk +
        (l.foldl statsStep acc).lowRisk - (l.foldl statsStep acc).total =
      acc.highRisk + acc.medRisk + acc.lowRisk - acc.total := by
    intro l
    induction l with
    | nil => intro _ acc; rfl
    | cons r t ih =>
      intro hl acc
      have ht : ∀ x ∈ t, x.riskLevel = RiskLevel.HIGH ∨ x.riskLevel = RiskLevel.MEDIUM ∨
          x.riskLevel = RiskLevel.LOW := fun x hx => hl x (List.mem_cons_of_mem _ hx)
      rw [List.foldl_cons, ih ht]
      rcases hl r (List.mem_cons_self r t) with h | h | h <;> simp [statsStep, h] <;> ring
  have hkey := key data hTier initStatsAcc
  have h0 : initStatsAcc.highRisk + initStatsAcc.medRisk + initStatsAcc.lowRisk -
      initStatsAcc.total = (0 : Int) := by decide
  omega

theorem calculateStats_tier_partition_witness :
    (∀ r ∈ demoRecords, r.riskLevel = RiskLevel.HIGH ∨ r.riskLevel = RiskLevel.MEDIUM ∨
      r.riskLevel = RiskLevel.LOW) ∧
    (calculateStats demoRecords).highRiskCount + (calculateStats demoRecords).mediumRiskCount +
      (calculateStats demoRecords).lowRiskCount = (calculateStats demoRecords).totalDetections :=
  ⟨by decide, calculateStats_tier_partition demoRecords (by decide)⟩

/-- C6: Review subset: with positive weights, `reviewedCount ≤
totalDetections`, `highRiskReviewedCount ≤ highRiskCount` and
`mediumRiskReviewedCount ≤ mediumRiskCount`. -/
theorem calculateStats_review_subset (data : List RiskRecord)
    (hPos : ∀ r ∈ data, PosCount r) :
    (calculateStats data).reviewedCount ≤ (calculateStats data).totalDetections ∧
    (calculateStats data).highRiskReviewedCount ≤ (calculateStats data).highRiskCount ∧
    (calculateStats data).mediumRiskReviewedCount ≤ (calculateStats data).mediumRiskCount := by
  simp only [calculateStats]
  have key : ∀ (l : List RiskRecord), (∀ r ∈ l, PosCount r) →
      ∀ acc : StatsAcc,
      acc.reviewedTotal ≤ acc.total → acc.highRiskReviewed ≤ acc.highRisk →
      acc.mediumRiskReviewed ≤ acc.medRisk →
      (l.foldl statsStep acc).reviewedTotal ≤ (l.foldl statsStep acc).total ∧
      (l.foldl statsStep acc).highRiskReviewed ≤ (l.foldl statsStep acc).highRisk ∧
      (l.foldl statsStep acc).mediumRiskReviewed ≤ (l.foldl statsStep acc).medRisk := by
    intro l
    induction l with
    | nil => intro _ acc h1 h2 h3; exact ⟨h1, h2, h3⟩
    | cons r t ih =>
      intro hl acc h1 h2 h3
      have hn : 0 < recordWeight r := recordWeight_pos r (hl r (List.mem_cons_self r t))
      have ht : ∀ x ∈ t, PosCount x := fun x hx => hl x (List.mem_cons_of_mem _ hx)
      rw [List.foldl_cons]
      refine ih ht (statsStep acc r) ?_ ?_ ?_ <;>
        · simp only [statsStep]
          split_ifs <;> first | omega | tauto
  exact key data hPos initStatsAcc le_rfl le_rfl le_rfl

theorem calculateStats_review_subset_witness :
    (∀ r ∈ demoRecords, PosCount r) ∧
      ((calculateStats demoRecords).reviewedCount ≤ (calculateStats demoRecords).totalDetections ∧
      (calculateStats demoRecords).highRiskReviewedCount ≤ (calculateStats demoRecords).highRiskCount ∧
      (calculateStats demoRecords).mediumRiskReviewedCount ≤ (calculateStats demoRecords).mediumRiskCount) :=
  ⟨by decide, calculateStats_review_subset demoRecords (by decide)⟩

/-- Lookup in an insertion-ordered association list (model of `Map.get`). -/
def mlookup {κ β : Type} [DecidableEq κ] (k : κ) : List (κ × β) → Option β
  | [] => none
  | (k', v) :: rest => if k' = k then some v else mlookup k rest

/-- Model of the JavaScript pattern
`if (!map.has(k)) map.set(k, init); mutate(map.get(k))`:
a missing key is appended at the end (`Map.set` insertion order), an existing
entry is updated in place. -/
def bump {κ β : Type} [DecidableEq κ] (k : κ) (init : β) (f : β → β) :
    List (κ × β) → List (κ × β)
  | [] => [(k, f init)]
  | (k', v) :: rest => if k' = k then (k', f v) :: rest else (k', v) :: bump k init f rest

theorem mlookup_bump_self {κ β : Type} [DecidableEq κ] (k : κ) (init : β) (f : β → β)
    (l : List (κ × β)) :
    mlookup k (bump k init f l) = some (f ((mlookup k l).getD init)) := by
  induction l with
  | nil => simp [bump, mlookup]
  | cons p rest ih =>
    obtain ⟨k', v⟩ := p
    by_cases h : k' = k <;> simp [bump, mlookup, h, ih]

theorem mlookup_bump_other {κ β : Type} [DecidableEq κ] {k k' : κ} (init : β) (f : β → β)
    (l : List (κ × β)) (h : k' ≠ k) :
    mlookup k' (bump k init f l) = mlookup k' l := by
  induction l with
  | nil => simp [bump, mlookup, Ne.symm h]
  | cons p rest ih =>
    obtain ⟨k₀, v⟩ := p
    by_cases h0 : k₀ = k <;> by_cases h1 : k₀ = k' <;>
      simp_all [bump, mlookup]

/-- The `EnterpriseStat` row type from `src/components/EnterpriseTable.tsx` lines 12-23. -/
structure EnterpriseStat where
  id : String
  name : String
  total : Int
  high : Int
  medium : Int
  low : Int
  trueFraud : Int
  suspected : Int
  illegal : Int
  falsePositive : Int
deriving DecidableEq, Repr

/-- The entry created for a first-seen enterprise id
(`EnterpriseTable.tsx` lines 39-52). -/
def entInit (r : RiskRecord) : EnterpriseStat :=
  { id := r.enterpriseId, name := r.enterpriseName,
    total := 0, high := 0, medium := 0, low := 0,
    trueFraud := 0, suspected := 0, illegal := 0, falsePositive := 0 }

/-- The counter updates applied per record (`EnterpriseTable.tsx` lines 54-65). -/
def entAdd (r : RiskRecord) (s : EnterpriseStat) : EnterpriseStat :=
  let c := recordWeight r
  { s with
    total := s.total + c
    high := s.high + (if r.riskLevel = RiskLevel.HIGH then c else 0)
    medium := s.medium + (if r.riskLevel = RiskLevel.MEDIUM then c else 0)
    low := s.low + (if r.riskLevel = RiskLevel.LOW then c else 0)
    trueFraud := s.trueFraud +
      (if r.reviewStatus = ReviewStatus.REVIEWED ∧ r.reviewResult = ReviewResult.TRUE_FRAUD then c else 0)
    suspected := s.suspected +
      (if r.reviewStatus = ReviewStatus.REVIEWED ∧ r.reviewResult = ReviewResult.SUSPECTED_FRAUD then c else 0)
    illegal := s.illegal +
      (if r.reviewStatus = ReviewStatus.REVIEWED ∧ r.reviewResult = ReviewResult.ILLEGAL_BUSINESS then c else 0)
    falsePositive := s.falsePositive +
      (if r.reviewStatus = ReviewStatus.REVIEWED ∧ r.reviewResult = ReviewResult.FALSE_POSITIVE then c else 0) }

/-- One `data.forEach(record => ...)` iteration of `rawStats`
(`EnterpriseTable.tsx` lines 36-66). -/
def entStep (m : List (String × EnterpriseStat)) (r : RiskRecord) :
    List (String × EnterpriseStat) :=
  bump r.enterpriseId (entInit r) (entAdd r) m

/-- The keyed `Map` built by `rawStats` (`EnterpriseTable.tsx` lines 33-69). -/
def rawStatsMap (data : List RiskRecord) : List (String × EnterpriseStat) :=
  data.foldl entStep []

/-- Values of the map, `Array.from(map.values())`: the per-enterprise rows in insertion order. -/
def rawStats (data : List RiskRecord) : List EnterpriseStat :=
  (rawStatsMap data).map Prod.snd

theorem entAdd_id (r : RiskRecord) (s : EnterpriseStat) : (entAdd r s).id = s.id := rfl

theorem entAdd_name (r : RiskRecord) (s : EnterpriseStat) : (entAdd r s).name = s.name := rfl

theorem rawStats_first_name_aux :
    ∀ (l : List RiskRecord) (acc : List (String × EnterpriseStat)) (eid : String)
      (st : EnterpriseStat),
      mlookup eid (l.foldl entStep acc) = some st →
      (∃ st₀, mlookup eid acc = some st₀ ∧ st₀.id = st.id ∧ st₀.name = st.name) ∨
      (mlookup eid acc = none ∧
        ∃ r, l.find? (fun r => r.enterpriseId == eid) = some r ∧
          st.id = r.enterpriseId ∧ st.name = r.enterpriseName) := by
  intro l
  induction l with
  | nil =>
    intro acc eid st h
    exact Or.inl ⟨st, h, rfl, rfl⟩
  | cons r t ih =>
    intro acc eid st h
    rw [List.foldl_cons] at h
    rcases ih (entStep acc r) eid st h with ⟨st₀, hl, hid, hname⟩ | ⟨hnone, r', hfind, hid, hname⟩
    · by_cases he : r.enterpriseId = eid
      · subst he
        rw [entStep, mlookup_bump_self] at hl
        cases hma : mlookup r.enterpriseId acc with
        | none =>
          rw [hma] at hl
          simp only [Option.getD_none, Option.some.injEq] at hl
          refine Or.inr ⟨rfl, r, ?_, ?_, ?_⟩
          · simp [List.find?_cons_of_pos]
          · rw [← hid, ← hl, entAdd_id, entInit]
          · rw [← hname, ← hl, entAdd_name, entInit]
        | some s₀ =>
          rw [hma] at hl
          simp only [Option.getD_some, Option.some.injEq] at hl
          refine Or.inl ⟨s₀, rfl, ?_, ?_⟩
          · rw [← hid, ← hl, entAdd_id]
          · rw [← hname, ← hl, entAdd_name]
      · rw [entStep, mlookup_bump_other _ _ _ (fun hh => he hh.symm)] at hl
        exact Or.inl ⟨st₀, hl, hid, hname⟩
    · by_cases he : r.enterpriseId = eid
      · subst he
        rw [entStep, mlookup_bump_self] at hnone
        cases hnone
      · rw [entStep, mlookup_bump_other _ _ _ (fun hh => he hh.symm)] at hnone
        refine Or.inr ⟨hnone, r', ?_, hid, hname⟩
        rw [List.find?_cons_of_neg _ (by simpa using he)]
        exact hfind

/-- C10: First-write-wins for the per-enterprise row name: whenever the
`rawStats` map holds a row for an enterprise id, the row's `id` is that id
and its `name` is the `enterpriseName` of the **first** record in input order
with that `enterpriseId`; later records touch only the counters. -/
theorem rawStats_first_write_wins (data : List RiskRecord) (eid : String)
    (st : EnterpriseStat) (h : mlookup eid (rawStatsMap data) = some st) :
    st.id = eid ∧
      (data.find? (fun r => r.enterpriseId == eid)).map RiskRecord.enterpriseName =
        some st.name := by
  rcases rawStats_first_name_aux data [] eid st h with ⟨st₀, hl, _, _⟩ | ⟨_, r, hfind, hid, hname⟩
  · cases hl
  · have hrid : r.enterpriseId = eid := by
      have := List.find?_some hfind
      simpa using this
    constructor
    · rw [hid, hrid]
    · rw [hfind]
      simp [hname]

def c10Demo : List RiskRecord :=
  [ { id := "R1", enterpriseId := "E1", enterpriseName := "Alpha",
      customerNumber := "100", callTime := 0, duration := 60,
      riskLevel := RiskLevel.HIGH, fraudType := "f", riskPoints := [],
      reviewStatus := ReviewStatus.REVIEWED,
      reviewResult := ReviewResult.TRUE_FRAUD, reviewer := some "a",
      count := some 1 },
    { id := "R2", enterpriseId := "E1", enterpriseName := "Beta",
      customerNumber := "101", callTime := 0, duration := 0,
      riskLevel := RiskLevel.LOW, fraudType := "n", riskPoints := [],
      reviewStatus := ReviewStatus.PENDING,
      reviewResult := ReviewResult.PENDING, reviewer := none,
      count := some 5 } ]

def c10Row : EnterpriseStat :=
  { id := "E1", name := "Alpha", total := 6, high := 1, medium := 0, low := 5,
    trueFraud := 1, suspected := 0, illegal := 0, falsePositive := 0 }

theorem rawStats_first_write_wins_witness :
    mlookup "E1" (rawStatsMap c10Demo) = some c10Row ∧
      (c10Row.id = "E1" ∧
        (c10Demo.find? (fun r => r.enterpriseId == "E1")).map RiskRecord.enterpriseName =
          some c10Row.name) :=
  ⟨by decide, rawStats_first_write_wins c10Demo "E1" c10Row (by decide)⟩

/-- Does `hay` start with `needle`?  (character-exact). -/
def strStartsWith : List Char → List Char → Bool
  | [], _ => true
  | _ :: _, [] => false
  | c :: cs, d :: ds => c == d && strStartsWith cs ds

/-- JavaScript `hay.includes(needle)`: `needle` occurs contiguously in `hay`. -/
def strContains : List Char → List Char → Bool
  | [], needle => needle.isEmpty
  | c :: t, needle => strStartsWith needle (c :: t) || strContains t needle

/-- JavaScript `s.includes(sub)` on our string model. -/
def jsIncludes (s sub : String) : Bool := strContains s.data sub.data

/-- JavaScript `s.toLowerCase()` (ASCII case mapping suffices for this
repository's data). -/
def jsToLowerCase (s : String) : String := ⟨s.data.map Char.toLower⟩

/-- Falsiness of `s.trim()` in `if (searchTerm.trim())`: the term is empty or
whitespace-only. -/
def jsIsBlank (s : String) : Bool := s.data.all Char.isWhitespace

/-- The search-filter stage of `processedData`
(`src/components/EnterpriseTable.tsx` lines 72-82): when the trimmed term is
truthy, keep rows whose lowercased `name` contains the lowercased term or
whose raw `id` contains the lowercased term. -/
def filterRows (term : String) (rows : List EnterpriseStat) : List EnterpriseStat :=
  if jsIsBlank term then rows
  else rows.filter fun it =>
    jsIncludes (jsToLowerCase it.name) (jsToLowerCase term) ||
      jsIncludes it.id (jsToLowerCase term)

/-- Modelled from the spec: "case-insensitive substring match against a row's
display name and its id field" — both fields lowercased before comparing. -/
def specRowMatch (term : String) (row : EnterpriseStat) : Bool :=
  jsIncludes (jsToLowerCase row.name) (jsToLowerCase term) ||
    jsIncludes (jsToLowerCase row.id) (jsToLowerCase term)

def c7Row : EnterpriseStat :=
  { id := "ABC", name := "x", total := 0, high := 0, medium := 0, low := 0,
    trueFraud := 0, suspected := 0, illegal := 0, falsePositive := 0 }

/-- C7 counterexample: a row whose `id` is `"ABC"` matches the term
`"ABC"` case-insensitively (as the claim requires), yet the code's filter
drops it: the code lowercases the term but compares it against the raw,
un-lowercased `id`. -/
theorem filterRows_id_not_case_insensitive :
    specRowMatch "ABC" c7Row = true ∧ filterRows "ABC" [c7Row] = [] := by decide

/-- C7 amended: characterization of the code's search filter: an empty or
whitespace-only term returns the rows unchanged; otherwise a row is kept iff
the lowercased term occurs in the lowercased display name or occurs in the
raw (case-sensitive) id. -/
theorem filterRows_characterization (term : String) (rows : List EnterpriseStat) :
    (jsIsBlank term = true → filterRows term rows = rows) ∧
    ∀ row, row ∈ filterRows term rows ↔
      row ∈ rows ∧ (jsIsBlank term = true ∨
        (jsIncludes (jsToLowerCase row.name) (jsToLowerCase term) ||
          jsIncludes row.id (jsToLowerCase term)) = true) := by
  by_cases hb : jsIsBlank term = true
  · exact ⟨fun _ => by simp [filterRows, hb], fun row => by simp [filterRows, hb]⟩
  · refine ⟨fun h => absurd h hb, fun row => ?_⟩
    simp [filterRows, hb, List.mem_filter]

theorem filterRows_characterization_witness :
    jsIsBlank "" = true ∧ filterRows "" [c7Row] = [c7Row] :=
  ⟨by decide, (filterRows_characterization "" [c7Row]).1 (by decide)⟩

/-- The `SortKey` type from `src/components/EnterpriseTable.tsx` line 9. -/
inductive SortKey where
  | high
  | medium
  | low
  | trueFraud
  | suspected
  | illegal
  | falsePositive
deriving DecidableEq, Repr

/-- The `SortDirection` type from `src/components/EnterpriseTable.tsx` line 10. -/
inductive SortDirection where
  | asc
  | desc
deriving DecidableEq, Repr

/-- JavaScript `prev.direction === 'asc' ? 'desc' : 'asc'`. -/
def flipDirection : SortDirection → SortDirection
  | SortDirection.asc => SortDirection.desc
  | SortDirection.desc => SortDirection.asc

/-- The `sortConfig` state (`EnterpriseTable.tsx` lines 27-30): the key may
be `null`. -/
structure SortConfig where
  key : Option SortKey
  direction : SortDirection
deriving DecidableEq, Repr

/-- Embedding of `handleSort` from `src/components/EnterpriseTable.tsx` lines 101-108. -/
def handleSort (key : SortKey) (prev : SortConfig) : SortConfig :=
  if prev.key = some key then
    { key := some key, direction := flipDirection prev.direction }
  else
    { key := some key, direction := SortDirection.desc }

theorem flipDirection_involutive (d : SortDirection) :
    flipDirection (flipDirection d) = d := by
  cases d <;> rfl

/-- C8: Sort-selection state machine: a request with key `K` moves any
state to key `K`, flipping the direction when `K` was already active and
defaulting to `desc` otherwise; hence the second same-key request yields the
opposite direction of the first and the third returns to the first state. -/
theorem handleSort_state_machine (s : SortConfig) (k : SortKey) :
    handleSort k s =
      { key := some k,
        direction := if s.key = some k then flipDirection s.direction
                     else SortDirection.desc } ∧
    (handleSort k (handleSort k s)).direction = flipDirection (handleSort k s).direction ∧
    handleSort k (handleSort k (handleSort k s)) = handleSort k s := by
  refine ⟨?_, ?_, ?_⟩
  · by_cases h : s.key = some k <;> simp [handleSort, h]
  · by_cases h : s.key = some k <;> simp [handleSort, h]
  · by_cases h : s.key = some k <;>
      simp [handleSort, h, flipDirection_involutive]

def msPerDay : Int := 86400000

/-- The local calendar-day number of an epoch-millisecond instant, for a
runtime timezone `off` milliseconds east of UTC (the bucket behind
`new Date(t).toLocaleDateString(...)`). -/
def localDay (off t : Int) : Int := (t + off).fdiv msPerDay

/-- Local midnight of the local day containing `t`
(`new Date(dateObj.toDateString()).getTime()`). -/
def localDayStartMs (off t : Int) : Int := localDay off t * msPerDay - off

/-- A per-day bucket of the `dailyData` aggregation
(`src/components/DailyReportTable.tsx` lines 9-16); the key `date` is the
local calendar day standing in for the `toLocaleDateString('zh-CN')` string. -/
structure DailyAgg where
  date : Int
  timestamp : Int
  total : Int
  high : Int
  medium : Int
  low : Int
deriving DecidableEq, Repr

/-- The bucket created on first sight of a day
(`DailyReportTable.tsx` lines 30-39). -/
def dayInit (off : Int) (r : RiskRecord) : DailyAgg :=
  { date := localDay off r.callTime, timestamp := localDayStartMs off r.callTime,
    total := 0, high := 0, medium := 0, low := 0 }

/-- The counter updates applied per record (`DailyReportTable.tsx` lines 41-45). -/
def dayAdd (r : RiskRecord) (s : DailyAgg) : DailyAgg :=
  let c := recordWeight r
  { s with
    total := s.total + c
    high := s.high + (if r.riskLevel = RiskLevel.HIGH then c else 0)
    medium := s.medium + (if r.riskLevel = RiskLevel.MEDIUM then c else 0)
    low := s.low + (if r.riskLevel = RiskLevel.LOW then c else 0) }

/-- One `data.forEach(record => ...)` iteration of `dailyData`
(`DailyReportTable.tsx` lines 25-46). -/
def dayStep (off : Int) (m : List (Int × DailyAgg)) (r : RiskRecord) :
    List (Int × DailyAgg) :=
  bump (localDay off r.callTime) (dayInit off r) (dayAdd r) m

/-- The keyed per-day `Map` built by `dailyData`
(`DailyReportTable.tsx` lines 22-49; the component then lists its values
sorted by `timestamp` descending). -/
def dailyDataMap (off : Int) (data : List RiskRecord) : List (Int × DailyAgg) :=
  data.foldl (dayStep off) []

theorem foldl_replace_mid {α β : Type} (f : β → α → β) (x y : α)
    (hxy : ∀ b, f b x = f b y) (d₁ d₂ : List α) (init : β) :
    (d₁ ++ x :: d₂).foldl f init = (d₁ ++ y :: d₂).foldl f init := by
  rw [List.foldl_append, List.foldl_append, List.foldl_cons, List.foldl_cons, hxy]

/-- C9: A record whose `count` is present but `0` carries weight 1 in all
three aggregations — `calculateStats`, the per-enterprise rollup and the
per-day rollup — exactly as if `count` were unset (`d.count || 1` treats `0`
as falsy). -/
theorem count_zero_same_as_unset (r : RiskRecord) (d₁ d₂ : List RiskRecord) (off : Int) :
    calculateStats (d₁ ++ { r with count := some 0 } :: d₂) =
      calculateStats (d₁ ++ { r with count := none } :: d₂) ∧
    rawStatsMap (d₁ ++ { r with count := some 0 } :: d₂) =
      rawStatsMap (d₁ ++ { r with count := none } :: d₂) ∧
    dailyDataMap off (d₁ ++ { r with count := some 0 } :: d₂) =
      dailyDataMap off (d₁ ++ { r with count := none } :: d₂) := by
  have hw : recordWeight { r with count := some 0 } = recordWeight { r with count := none } := by
    simp [recordWeight]
  refine ⟨?_, ?_, ?_⟩
  · have hfold := foldl_replace_mid statsStep { r with count := some 0 }
      { r with count := none } (fun b => by simp [statsStep, hw]) d₁ d₂ initStatsAcc
    simp [calculateStats, hfold]
  · have he : entAdd { r with count := some 0 } = entAdd { r with count := none } := by
      funext s
      simp [entAdd, hw]
    exact foldl_replace_mid entStep { r with count := some 0 }
      { r with count := none } (fun b => by simp [entStep, entInit, he]) d₁ d₂ []
  · have hd : dayAdd { r with count := some 0 } = dayAdd { r with count := none } := by
      funext s
      simp [dayAdd, hw]
    exact foldl_replace_mid (dayStep off) { r with count := some 0 }
      { r with count := none } (fun b => by simp [dayStep, dayInit, hd]) d₁ d₂ []

/-- JavaScript `new Date("YYYY-MM-DD")` on a date-only string: the ECMAScript spec
interprets it as **UTC** midnight of that calendar date, i.e. day-number ×
86 400 000 epoch milliseconds.  This is how the `custom` branch of
`filteredData` (`src/unnamed/part_000` lines 81-87 and `part_001` lines
85-91) parses `customDateRange.start` and `customDateRange.end`. -/
def parseDateOnlyMs (d : Int) : Int := d * msPerDay

/-- JavaScript `end.setHours(23, 59, 59, 999)`: sets the **local** time-of-day of the
parsed end date, i.e. the last millisecond of the local calendar day that
contains the parsed instant. -/
def customEndMs (off e : Int) : Int :=
  localDayStartMs off (parseDateOnlyMs e) + (msPerDay - 1)

/-- The `custom` branch predicate of `filteredData`:
`callDate >= start && callDate <= end`. -/
def customKeep (off s e t : Int) : Bool :=
  decide (parseDateOnlyMs s ≤ t) && decide (t ≤ customEndMs off e)

/-- Modelled from the spec: a record is selected iff its **local** calendar
date lies between the start and end dates inclusive — equivalently the
effective interval is `[start 00:00:00.000, end 23:59:59.999]` local time. -/
def specCustomKeep (off s e t : Int) : Bool :=
  decide (s ≤ localDay off t) && decide (localDay off t ≤ e)

/-- Days since 1970-01-01 of a Gregorian calendar date (civil-calendar
day-number algorithm), used to name concrete dates in theorems. -/
def daysFromCivil (y m d : Int) : Int :=
  let y' := if m ≤ 2 then y - 1 else y
  let era := y'.fdiv 400
  let yoe := y' - era * 400
  let doy := (153 * (if 2 < m then m - 3 else m + 9) + 2).fdiv 5 + d - 1
  let doe := yoe * 365 + yoe.fdiv 4 - yoe.fdiv 100 + doy
  era * 146097 + doe - 719468

theorem daysFromCivil_epoch : daysFromCivil 1970 1 1 = 0 := by decide

theorem daysFromCivil_jan10_2024 : daysFromCivil 2024 1 10 = 19732 := by decide

/-- In a runtime whose local timezone is UTC (`off = 0`) the code's custom
filter selects exactly the records whose calendar date lies in
`[start, end]` — the behaviour the claim describes. -/
theorem customKeep_agrees_at_utc (s e t : Int) :
    customKeep 0 s e t = specCustomKeep 0 s e t := by
  have hf : ∀ a : Int, a.fdiv 86400000 = a / 86400000 :=
    fun a => Int.fdiv_eq_ediv a (by norm_num)
  simp only [customKeep, specCustomKeep, parseDateOnlyMs, customEndMs, localDayStartMs,
    localDay, msPerDay, add_zero, sub_zero, hf]
  rw [Bool.eq_iff_iff]
  simp only [Bool.and_eq_true, decide_eq_true_eq]
  omega

/-- C2: The custom-range filter is **not** calendar-day inclusive in
local time: in a runtime timezone east of UTC (here UTC+8, `off` =
8 × 3 600 000 ms) with `start = end = 2024-01-10`, a record at
2024-01-10 00:30 **local** time (epoch
`daysFromCivil 2024 1 10 × 86 400 000 − off + 1 800 000`) has local calendar
date 2024-01-10 yet is rejected, because `new Date("2024-01-10")` parses to
UTC midnight, after the record's instant. -/
theorem customKeep_misses_local_midnight :
    localDay (8 * 3600000) (parseDateOnlyMs (daysFromCivil 2024 1 10) - 8 * 3600000 + 1800000) =
      daysFromCivil 2024 1 10 ∧
    specCustomKeep (8 * 3600000) (daysFromCivil 2024 1 10) (daysFromCivil 2024 1 10)
      (parseDateOnlyMs (daysFromCivil 2024 1 10) - 8 * 3600000 + 1800000) = true ∧
    customKeep (8 * 3600000) (daysFromCivil 2024 1 10) (daysFromCivil 2024 1 10)
      (parseDateOnlyMs (daysFromCivil 2024 1 10) - 8 * 3600000 + 1800000) = false := by
  decide
